import Mathlib

/-!
Verification development for the MusicChain multi-chain wallet
(src/app_Version1.js).  The monitoring core is shallowly embedded:
JS objects keyed by chain id become functions `Nat → Option _`, the
mutable module-level state (`configuredChains`, `providers`, `monitors`,
`seenTxs`, the activity list plus postMessage sink) becomes an explicit
state record threaded through the operations, and the JS string
operations used by `parseChainsInput` are mirrored over `List Char`.
-/

namespace Wallet

/-! ## JS string helpers

`parseChainsInput` (src lines 89-104) uses `String.prototype.trim`,
`split(/[\n,]+/)`, `split(':')`, `join(':')`, `/^\d+$/.test` and
`Number(...)`.  These are mirrored here over `List Char`; only the ASCII
whitespace characters relevant to the inputs are modelled for `trim`,
and `toLowerCase` is modelled on ASCII letters (addresses are ASCII). -/

def isJsSpace (c : Char) : Bool :=
  c = ' ' || c = '\t' || c = '\n' || c = '\r'

/-- JS `String.prototype.trim` (ASCII whitespace). -/
def trimChars (cs : List Char) : List Char :=
  ((cs.dropWhile isJsSpace).reverse.dropWhile isJsSpace).reverse

/-- JS `String.prototype.split` on a class of single characters.  JS
collapses runs of separators when the regex has `+`; the callers below
trim every piece and drop the empty ones, after which the two behaviours
agree. -/
def splitOnPredAux (p : Char → Bool) : List Char → List Char → List (List Char)
  | [], cur => [cur.reverse]
  | c :: cs, cur =>
    if p c then cur.reverse :: splitOnPredAux p cs []
    else splitOnPredAux p cs (c :: cur)

def splitOnPred (p : Char → Bool) (cs : List Char) : List (List Char) :=
  splitOnPredAux p cs []

/-- JS `Array.prototype.join(':')`. -/
def joinColon : List (List Char) → List Char
  | [] => []
  | [x] => x
  | x :: xs => x ++ ':' :: joinColon xs

/-- JS `Number(s)` restricted to strings matching `/^\d+$/`. -/
def digitsToNat (cs : List Char) : Nat :=
  cs.foldl (fun n c => n * 10 + (c.toNat - 48)) 0

/-- JS `String.prototype.toLowerCase` (ASCII). -/
def lowerStr (s : String) : String :=
  String.mk (s.data.map Char.toLower)

/-- JS `x || y` on nullable strings: `null` and `""` are falsy. -/
def jsOr (x y : Option String) : Option String :=
  match x with
  | some s => if s = "" then y else some s
  | none => y

/-! ## Data model: chain configurations (src lines 14-19, 74) -/

structure ChainConfig where
  id : Nat
  name : String
  rpc : Option String
  explorer : String
  native : String
  deriving DecidableEq

/-- A JS object keyed by chain id (`configuredChains`, `DEFAULT_CHAINS`,
the result of `parseChainsInput`). -/
abbrev ChainMap := Nat → Option ChainConfig

/-- The built-in default chain set `DEFAULT_CHAINS` (src lines 14-19).
In the source this object is module-level and mutable; the operations
below thread its current value explicitly. -/
def DEFAULT_CHAINS : ChainMap := fun i =>
  if i = 1 then
    some { id := 1, name := "Ethereum Mainnet", rpc := some "https://cloudflare-eth.com",
           explorer := "https://etherscan.io/tx/", native := "ETH" }
  else if i = 5 then
    some { id := 5, name := "Goerli (test)", rpc := some "https://rpc.ankr.com/eth_goerli",
           explorer := "https://goerli.etherscan.io/tx/", native := "ETH" }
  else if i = 56 then
    some { id := 56, name := "BSC Mainnet", rpc := some "https://bsc-dataseed.binance.org/",
           explorer := "https://bscscan.com/tx/", native := "BNB" }
  else if i = 137 then
    some { id := 137, name := "Polygon", rpc := some "https://polygon-rpc.com",
           explorer := "https://polygonscan.com/tx/", native := "MATIC" }
  else none

/-! ## parseChainsInput (src lines 89-104)

Each item of the raw input is `chainId` or `chainId:rpc`.  The source
destructures `p.split(':')` into `left` and `rest`; items whose trimmed
id part fails `/^\d+$/` are skipped (`continue`).  Crucially, for an id
present in `DEFAULT_CHAINS` the source takes `meta = DEFAULT_CHAINS[chainId]`
by reference and then assigns `meta.rpc = rpc || meta.rpc || null`,
mutating the stored default object; the returned entry is the shallow
copy `{...meta}`.  The embedding threads the defaults map through the
item loop and writes the updated record back for ids the defaults
contain. -/

def partIdStr (p : List Char) : List Char :=
  trimChars ((splitOnPred (fun c => c = ':') p).headD [])

def isWellFormedPart (p : List Char) : Bool :=
  !(partIdStr p).isEmpty && (partIdStr p).all Char.isDigit

def partId (p : List Char) : Nat :=
  digitsToNat (partIdStr p)

def partRest (p : List Char) : List (List Char) :=
  (splitOnPred (fun c => c = ':') p).tail

/-- One iteration of the `for(const p of parts)` loop.  The accumulator
is the pair (current `DEFAULT_CHAINS`, `result` object built so far). -/
def processPart (acc : ChainMap × ChainMap) (p : List Char) : ChainMap × ChainMap :=
  if isWellFormedPart p then
    let chainId := partId p
    let rest := partRest p
    let defaults := acc.1
    let rpc : Option String :=
      if rest.length != 0 then some (String.mk (trimChars (joinColon rest)))
      else match defaults chainId with
        | some d => d.rpc
        | none => none
    let meta : ChainConfig :=
      match defaults chainId with
      | some d => d
      | none => { id := chainId, name := "Chain " ++ toString chainId,
                  rpc := jsOr rpc none, explorer := "", native := "" }
    let meta2 : ChainConfig := { meta with rpc := jsOr rpc (jsOr meta.rpc none) }
    let defaults2 : ChainMap :=
      match defaults chainId with
      | some _ => fun i => if i = chainId then some meta2 else defaults i
      | none => defaults
    (defaults2, fun i => if i = chainId then some meta2 else acc.2 i)
  else acc

/-- `raw.split(/[\n,]+/).map(s=>s.trim()).filter(Boolean)` (src line 91). -/
def splitParts (raw : List Char) : List (List Char) :=
  ((splitOnPred (fun c => c = '\n' || c = ',') raw).map trimChars).filter
    (fun p => !p.isEmpty)

/-- `parseChainsInput` (src lines 89-104).  Returns the defaults map as
mutated by the loop together with the `result` object. -/
def parseChainsInput (defaults : ChainMap) (raw : String) : ChainMap × ChainMap :=
  (splitParts raw.data).foldl processPart (defaults, fun _ => none)

/-! ## Notification and deduplication (src lines 77, 262-290)

`recordActivity(chainId, info)` deduplicates on `info.txHash` against the
process-wide `seenTxs` set and then delivers the event (activity-list
entry plus `postMessage` to the site); the delivered events are modelled
as an ordered `sink` list.  JS truthiness makes an empty-string hash
behave like an absent one (forwarded, never recorded).  The display
formatting (explorer link, `short(...)`) has no observable effect on the
claims and is not modelled. -/

inductive TxKind where
  | Native : TxKind
  | ERC20 : TxKind
  | SitePayment : TxKind
  deriving DecidableEq

/-- The `info` objects passed to `recordActivity`. -/
structure ActivityInfo where
  type : TxKind
  fromAddr : String
  toAddr : String
  token : Option String
  amount : String
  txHash : Option String
  deriving DecidableEq

structure NotifState where
  seenTxs : List String
  sink : List (Nat × ActivityInfo)
  deriving DecidableEq

/-- `recordActivity` (src lines 262-290). -/
def recordActivity (chainId : Nat) (info : ActivityInfo) (ns : NotifState) : NotifState :=
  match info.txHash with
  | none => { seenTxs := ns.seenTxs, sink := ns.sink ++ [(chainId, info)] }
  | some h =>
    if h = "" then { seenTxs := ns.seenTxs, sink := ns.sink ++ [(chainId, info)] }
    else if h ∈ ns.seenTxs then ns
    else { seenTxs := h :: ns.seenTxs, sink := ns.sink ++ [(chainId, info)] }

/-- A sequence of `recordActivity` calls (from any chains/callbacks),
executed in order — the page is single-threaded, so interleavings are
sequences. -/
def runCalls (ns : NotifState) : List (Nat × ActivityInfo) → NotifState
  | [] => ns
  | c :: cs => runCalls (recordActivity c.1 c.2 ns) cs

/-- Number of delivered events carrying the hash `h`. -/
def countHash (sink : List (Nat × ActivityInfo)) (h : String) : Nat :=
  sink.countP (fun e => decide (e.2.txHash = some h))

/-! ## Block-poller transaction scan (src lines 371-397)

The interval body fetches the latest block, initialises the watermark to
`latestBlock - 1` on the first tick, and scans the blocks
`polledBlock+1 .. latest`; for each transaction it emits a `Native`
event when the destination is the wallet and additionally a
`SitePayment` event when the source matches the configured site address.
Amount formatting (`formatEther`) is kept abstract: the amount field
carries the raw value string, which no claim inspects. -/

structure Tx where
  fromAddr : String
  toAddr : Option String
  value : String
  hash : String
  deriving DecidableEq

def txToMatches (wallet : String) (tx : Tx) : Bool :=
  match tx.toAddr with
  | some t => !(t = "") && lowerStr t = lowerStr wallet
  | none => false

def siteMatches (siteAddr : Option String) (wallet : String) (tx : Tx) : Bool :=
  match siteAddr with
  | some s =>
    !(s = "") && !(tx.fromAddr = "") && lowerStr tx.fromAddr = lowerStr s &&
      txToMatches wallet tx
  | none => false

def nativeInfo (tx : Tx) : ActivityInfo :=
  { type := TxKind.Native, fromAddr := tx.fromAddr, toAddr := tx.toAddr.getD "",
    token := none, amount := tx.value, txHash := some tx.hash }

def siteInfo (tx : Tx) : ActivityInfo :=
  { nativeInfo tx with type := TxKind.SitePayment }

/-- The per-transaction body of the poll loop (src lines 381-390). -/
def processTx (wallet : String) (siteAddr : Option String) (chainId : Nat)
    (ns : NotifState) (tx : Tx) : NotifState :=
  let ns1 := if txToMatches wallet tx then recordActivity chainId (nativeInfo tx) ns else ns
  if siteMatches siteAddr wallet tx then recordActivity chainId (siteInfo tx) ns1 else ns1

/-- Integer interval `lo .. hi` (inclusive), ascending — the
`for(let b = polledBlock+1; b <= block.number; b++)` range. -/
def intRange (lo hi : Int) : List Int :=
  (List.range (hi + 1 - lo).toNat).map (fun (i : Nat) => lo + (i : Int))

/-- Watermark arithmetic of one poll tick (src lines 373-393): given the
current `polledBlock` (`none` before the first tick) and the latest
block number, returns the new watermark and the block numbers scanned
this tick. -/
def pollTickPure (pb0 : Option Int) (latest : Int) : Option Int × List Int :=
  let pb := pb0.getD (latest - 1)
  if latest ≤ pb then (some pb, [])
  else (some latest, intRange (pb + 1) latest)

def pollRunAux (pb : Option Int) (acc : List (List Int)) : List Int → Option Int × List (List Int)
  | [] => (pb, acc)
  | l :: ls =>
    pollRunAux (pollTickPure pb l).1 (acc ++ [(pollTickPure pb l).2]) ls

/-- Run the poller against a sequence of observed latest-block numbers,
collecting the blocks scanned on each tick. -/
def pollRun (latests : List Int) : Option Int × List (List Int) :=
  pollRunAux none [] latests

/-! ## Application state and session operations (src lines 71-77, 106-113,
292-334, 336-417, 505-542)

Provider handles and live listeners are JS object identities; they are
modelled by counters that allocate a fresh number per created object.
`initUI` seeds `configuredChains` with a shallow copy of
`DEFAULT_CHAINS` (src line 507); the copy aliases the per-chain objects,
but no modelled operation reads `configuredChains` between a default
mutation and the merge that overwrites the entry, so value semantics
with an explicit defaults map is observably equivalent. -/

structure MonitorEntry where
  tokenListeners : List Nat
  pollHandle : Option Nat
  deriving DecidableEq

structure St where
  defaults : ChainMap
  configured : ChainMap
  providers : Nat → Option Nat
  nextHandle : Nat
  monitors : Nat → Option MonitorEntry
  liveListeners : List (Nat × String × Nat)
  nextListener : Nat
  notif : NotifState

/-- The module state right after `initUI()` (src lines 505-545). -/
def initSt : St :=
  { defaults := DEFAULT_CHAINS, configured := DEFAULT_CHAINS,
    providers := fun _ => none, nextHandle := 0,
    monitors := fun _ => none, liveListeners := [], nextListener := 0,
    notif := { seenTxs := [], sink := [] } }

/-- `ensureProvider` (src lines 106-113).  Returns the cached handle, or
opens (allocates) a new connection for a configured chain with a truthy
rpc string; otherwise throws. -/
def ensureProvider (st : St) (chainId : Nat) : Except String (Nat × St) :=
  match st.providers chainId with
  | some h => Except.ok (h, st)
  | none =>
    match st.configured chainId with
    | none => Except.error ("No RPC configured for chain " ++ toString chainId)
    | some cfg =>
      match cfg.rpc with
      | none => Except.error ("No RPC configured for chain " ++ toString chainId)
      | some r =>
        if r = "" then Except.error ("No RPC configured for chain " ++ toString chainId)
        else
          Except.ok (st.nextHandle,
            { st with
              providers := fun i => if i = chainId then some st.nextHandle else st.providers i,
              nextHandle := st.nextHandle + 1 })

/-- The `apply-chains` click handler (src lines 527-537): trim the raw
input (empty input only alerts), parse it, merge the parsed entries over
`configuredChains` (parsed entries win), and drop the whole provider
pool (`providers = {}`). -/
def applyChains (st : St) (rawInput : String) : St :=
  let raw := trimChars rawInput.data
  if raw = [] then st
  else
    let pr := parseChainsInput st.defaults (String.mk raw)
    { st with
      defaults := pr.1,
      configured := fun i => match pr.2 i with | some c => some c | none => st.configured i,
      providers := fun _ => none }

/-- `subscribeTokenTransfer` (src lines 292-334).  The RPC answer for
the historical `getLogs` query is the `histLogs` argument: `none` models
a throwing query (swallowed by the inner catch), `some ls` the logs
found, each forwarded through `recordActivity` as an `ERC20` event.
After the backfill the live `contract.on` listener is attached and its
cancel closure pushed onto `monitors[chainId].tokenListeners`; no
already-subscribed (chain, token) bookkeeping exists in the source.  A
failing `ensureProvider` is swallowed by the outer catch
(`console.warn`).  Decimal resolution only affects amount formatting,
which is kept abstract. -/
structure TransferLog where
  fromAddr : String
  toAddr : String
  value : String
  txHash : String
  deriving DecidableEq

def subscribeTokenTransfer (st : St) (chainId : Nat) (tokenAddr : String)
    (histLogs : Option (List TransferLog)) : St :=
  match ensureProvider st chainId with
  | Except.error _ => st
  | Except.ok hs =>
    let st1 := hs.2
    let notif2 :=
      match histLogs with
      | none => st1.notif
      | some ls =>
        ls.foldl (fun ns l =>
          recordActivity chainId
            { type := TxKind.ERC20, fromAddr := l.fromAddr, toAddr := l.toAddr,
              token := some tokenAddr, amount := l.value, txHash := some l.txHash } ns)
          st1.notif
    let lid := st1.nextListener
    let entry := (st1.monitors chainId).getD { tokenListeners := [], pollHandle := none }
    { st1 with
      notif := notif2,
      liveListeners := st1.liveListeners ++ [(chainId, tokenAddr, lid)],
      nextListener := lid + 1,
      monitors := fun i =>
        if i = chainId then
          some { entry with tokenListeners := entry.tokenListeners ++ [lid] }
        else st1.monitors i }

/-- Number of live listeners attached for a (chain, token) pair. -/
def listenerCount (st : St) (c : Nat) (t : String) : Nat :=
  (st.liveListeners.filter (fun l => decide (l.1 = c) && decide (l.2.1 = t))).length

/-- The `selectedOptions.forEach(chainId => ...)` loop of
`startMonitoring` (src lines 344-398): a chain already in `monitors` is
skipped; otherwise `ensureProvider` runs — a throw propagates out of the
`forEach`, so the remaining chains are never visited — and on success
the chain's monitor entry is created.  The token subscriptions and the
poller body are asynchronous (they cannot abort this loop and are
modelled by `subscribeTokenTransfer` and the poll models); the interval
handle they record is not inspected by any claim. -/
def startChainsLoop (st : St) : List Nat → St × Option String
  | [] => (st, none)
  | c :: rest =>
    match st.monitors c with
    | some _ => startChainsLoop st rest
    | none =>
      match ensureProvider st c with
      | Except.error e => (st, some e)
      | Except.ok hs =>
        let st3 :=
          { hs.2 with
            monitors := fun i =>
              if i = c then some { tokenListeners := [], pollHandle := none }
              else hs.2.monitors i }
        startChainsLoop st3 rest

/-! ## Poller cancellation semantics (src lines 371-397, 405-417)

The interval callback is an `async` closure: a tick begins by awaiting
`getBlockWithTransactions('latest')`.  `stopMonitoring` runs
`clearInterval` on the recorded handle — a cleared interval never fires
again — but nothing cancels a tick whose RPC call is already in flight:
when that promise resolves, the rest of the callback runs unconditionally
(there is no cancellation check before `recordActivity`).  The machine
below models one poller with a single in-flight tick; `fetchComplete`
carries the RPC result (the latest block number and the chain's blocks)
and runs the remainder of the tick body, collapsing the inner awaits. -/

structure PollSim where
  intervalActive : Bool
  polledBlock : Option Int
  pending : Bool
  notif : NotifState

inductive PollOp where
  | tickFire : PollOp
  | fetchComplete : Int → (Int → List Tx) → PollOp
  | stopMonitor : PollOp

def pollStep (wallet : String) (siteAddr : Option String) (chainId : Nat)
    (st : PollSim) : PollOp → PollSim
  | PollOp.tickFire =>
    if st.intervalActive then { st with pending := true } else st
  | PollOp.stopMonitor => { st with intervalActive := false }
  | PollOp.fetchComplete latest blocks =>
    if st.pending then
      let pb := st.polledBlock.getD (latest - 1)
      if latest ≤ pb then { st with pending := false, polledBlock := some pb }
      else
        let ns :=
          (intRange (pb + 1) latest).foldl
            (fun ns b => (blocks b).foldl (processTx wallet siteAddr chainId) ns)
            st.notif
        { st with pending := false, polledBlock := some latest, notif := ns }
    else st

def pollRunOps (wallet : String) (siteAddr : Option String) (chainId : Nat)
    (st : PollSim) : List PollOp → PollSim
  | [] => st
  | op :: ops => pollRunOps wallet siteAddr chainId (pollStep wallet siteAddr chainId st op) ops

/-! ## Deduplication lemmas -/

/-- The invariant tying the seen-set to the sink: a (truthy) hash has
been delivered exactly once iff it is in `seenTxs`. -/
def dedupInv (ns : NotifState) (h : String) : Prop :=
  countHash ns.sink h = if h ∈ ns.seenTxs then 1 else 0

theorem recordActivity_seen_mono (c : Nat) (info : ActivityInfo) (ns : NotifState)
    (h : String) (hm : h ∈ ns.seenTxs) : h ∈ (recordActivity c info ns).seenTxs := by
  unfold recordActivity
  cases hx : info.txHash with
  | none => simpa using hm
  | some h2 =>
    by_cases h0 : h2 = ""
    · simpa [h0] using hm
    · by_cases hmem : h2 ∈ ns.seenTxs
      · simpa [h0, hmem] using hm
      · simp [h0, hmem]
        exact Or.inr hm

theorem recordActivity_seen_of_hash (c : Nat) (info : ActivityInfo) (ns : NotifState)
    (h : String) (hx : info.txHash = some h) (hne : h ≠ "") :
    h ∈ (recordActivity c info ns).seenTxs := by
  by_cases hmem : h ∈ ns.seenTxs
  · exact recordActivity_seen_mono c info ns h hmem
  · simp [recordActivity, hx, hne, hmem]

theorem countHash_append_one (s : List (Nat × ActivityInfo)) (c : Nat)
    (info : ActivityInfo) (h : String) :
    countHash (s ++ [(c, info)]) h =
      countHash s h + (if info.txHash = some h then 1 else 0) := by
  simp [countHash, List.countP_append, List.countP_cons]

theorem recordActivity_inv (c : Nat) (info : ActivityInfo) (ns : NotifState)
    (h : String) (hne : h ≠ "") (hInv : dedupInv ns h) :
    dedupInv (recordActivity c info ns) h := by
  unfold dedupInv at hInv ⊢
  cases hx : info.txHash with
  | none => simpa [recordActivity, hx, countHash_append_one] using hInv
  | some h2 =>
    by_cases h0 : h2 = ""
    · have hx3 : ¬ ("" = h) := fun hh => hne hh.symm
      simpa [recordActivity, hx, h0, countHash_append_one, hx3] using hInv
    · by_cases hmem : h2 ∈ ns.seenTxs
      · simpa [recordActivity, hx, h0, hmem] using hInv
      · by_cases heq : h2 = h
        · subst heq
          have hz : countHash ns.sink h2 = 0 := by simpa [hmem] using hInv
          simp [recordActivity, hx, h0, hmem, countHash_append_one, hz]
        · have hne3 : ¬ (h = h2) := fun hh => heq hh.symm
          have hx2 : some h2 ≠ some h := by simpa using heq
          simpa [recordActivity, hx, h0, hmem, countHash_append_one, hx2, hne3]
            using hInv

theorem runCalls_inv (calls : List (Nat × ActivityInfo)) :
    ∀ (ns : NotifState) (h : String), h ≠ "" → dedupInv ns h →
      dedupInv (runCalls ns calls) h := by
  induction calls with
  | nil => intro ns h _ hInv; simpa [runCalls] using hInv
  | cons c cs ih =>
    intro ns h hne hInv
    exact ih (recordActivity c.1 c.2 ns) h hne (recordActivity_inv c.1 c.2 ns h hne hInv)

theorem runCalls_seen_mono (calls : List (Nat × ActivityInfo)) :
    ∀ (ns : NotifState) (h : String), h ∈ ns.seenTxs →
      h ∈ (runCalls ns calls).seenTxs := by
  induction calls with
  | nil => intro ns h hm; simpa [runCalls] using hm
  | cons c cs ih =>
    intro ns h hm
    exact ih (recordActivity c.1 c.2 ns) h (recordActivity_seen_mono c.1 c.2 ns h hm)

theorem runCalls_seen_of_mem (calls : List (Nat × ActivityInfo)) :
    ∀ (ns : NotifState) (h : String), h ≠ "" →
      (∃ c ∈ calls, c.2.txHash = some h) → h ∈ (runCalls ns calls).seenTxs := by
  induction calls with
  | nil => intro ns h _ hex; simp at hex
  | cons c cs ih =>
    intro ns h hne hex
    rcases hex with ⟨q, hq, hqh⟩
    rcases List.mem_cons.mp hq with rfl | hq2
    · exact runCalls_seen_mono cs _ h (recordActivity_seen_of_hash q.1 q.2 ns h hqh hne)
    · exact ih _ h hne ⟨q, hq2, hqh⟩

/-! ## Poller lemmas -/

theorem intRange_mem_ge (lo hi b : Int) (hb : b ∈ intRange lo hi) : lo ≤ b := by
  unfold intRange at hb
  rcases List.mem_map.mp hb with ⟨i, hmem, rfl⟩
  have hnn : (0 : Int) ≤ (i : Int) := Int.natCast_nonneg i
  omega

/-- Once the watermark is at least `m - 1`, every block a tick scans is
at least `m`, and the watermark stays at least `m - 1`. -/
theorem pollRunAux_ge (m : Int) (ls : List Int) :
    ∀ (pb : Int) (acc : List (List Int)), m - 1 ≤ pb →
      (∀ b ∈ acc.flatten, m ≤ b) →
      ∀ b ∈ ((pollRunAux (some pb) acc ls).2).flatten, m ≤ b := by
  induction ls with
  | nil =>
    intro pb acc _ hacc b hb
    exact hacc b (by simpa [pollRunAux] using hb)
  | cons l ls ih =>
    intro pb acc hpb hacc b hb
    by_cases hle : l ≤ pb
    · have hstep : pollTickPure (some pb) l = (some pb, []) := by
        simp [pollTickPure, hle]
      rw [pollRunAux, hstep] at hb
      exact ih pb (acc ++ [[]]) hpb (by simpa using hacc) b hb
    · have hstep : pollTickPure (some pb) l = (some l, intRange (pb + 1) l) := by
        simp [pollTickPure, hle]
      rw [pollRunAux, hstep] at hb
      refine ih l (acc ++ [intRange (pb + 1) l]) (by omega) ?_ b hb
      intro b2 hb2
      rcases (by simpa using hb2 : b2 ∈ acc.flatten ∨ b2 ∈ intRange (pb + 1) l) with h2 | h2
      · exact hacc b2 (by simpa using h2)
      · have := intRange_mem_ge (pb + 1) l b2 h2
        omega

/-! ## parseChainsInput lemmas -/

theorem processPart_malformed (acc : ChainMap × ChainMap) (p : List Char)
    (hw : isWellFormedPart p = false) : processPart acc p = acc := by
  simp [processPart, hw]

theorem processPart_sets_self (acc : ChainMap × ChainMap) (p : List Char)
    (hw : isWellFormedPart p = true) :
    (((processPart acc p).2) (partId p)).isSome = true := by
  simp [processPart, hw]

theorem processPart_result_mono (acc : ChainMap × ChainMap) (p : List Char) (c : Nat)
    (hs : ((acc.2) c).isSome = true) : (((processPart acc p).2) c).isSome = true := by
  by_cases hw : isWellFormedPart p
  · by_cases hc : c = partId p <;> simp [processPart, hw, hc, hs]
  · simp [processPart, hw, hs]

theorem foldl_processPart_some (parts : List (List Char)) :
    ∀ (acc : ChainMap × ChainMap) (c : Nat),
      ((acc.2 c).isSome = true ∨ ∃ p ∈ parts, isWellFormedPart p = true ∧ partId p = c) →
      (((parts.foldl processPart acc).2) c).isSome = true := by
  induction parts with
  | nil =>
    intro acc c hc
    rcases hc with h | ⟨p, hp, _⟩
    · simpa using h
    · simp at hp
  | cons p ps ih =>
    intro acc c hc
    rcases hc with h | ⟨q, hq, hwf, hid⟩
    · exact ih (processPart acc p) c (Or.inl (processPart_result_mono acc p c h))
    · rcases List.mem_cons.mp hq with rfl | hq2
      · exact ih (processPart acc q) c (Or.inl (hid ▸ processPart_sets_self acc q hwf))
      · exact ih (processPart acc p) c (Or.inr ⟨q, hq2, hwf, hid⟩)

/-! ## Provider pool and session lemmas -/

theorem ensureProvider_cached_stable (st : St) (c h : Nat) (st2 : St)
    (hE : ensureProvider st c = Except.ok (h, st2)) :
    ensureProvider st2 c = Except.ok (h, st2) := by
  unfold ensureProvider at hE
  cases hp : st.providers c with
  | some h0 =>
    simp only [hp] at hE
    obtain ⟨rfl, rfl⟩ : h0 = h ∧ st = st2 := by simpa using hE
    simp [ensureProvider, hp]
  | none =>
    simp only [hp] at hE
    cases hc : st.configured c with
    | none => simp [hc] at hE
    | some cfg =>
      simp only [hc] at hE
      cases hr : cfg.rpc with
      | none => simp [hr] at hE
      | some r =>
        simp only [hr] at hE
        by_cases h0 : r = ""
        · simp [h0] at hE
        · simp only [h0, if_false] at hE
          obtain ⟨rfl, rfl⟩ : st.nextHandle = h ∧ _ = st2 := by simpa using hE
          simp [ensureProvider]

theorem ensureProvider_ok_frame (st : St) (c h : Nat) (st2 : St)
    (hE : ensureProvider st c = Except.ok (h, st2)) :
    st2.liveListeners = st.liveListeners ∧ st2.monitors = st.monitors ∧
      st2.notif = st.notif ∧ st2.nextListener = st.nextListener ∧
      st2.configured = st.configured := by
  unfold ensureProvider at hE
  cases hp : st.providers c with
  | some h0 =>
    simp only [hp] at hE
    obtain ⟨rfl, rfl⟩ : h0 = h ∧ st = st2 := by simpa using hE
    exact ⟨rfl, rfl, rfl, rfl, rfl⟩
  | none =>
    simp only [hp] at hE
    cases hc : st.configured c with
    | none => simp [hc] at hE
    | some cfg =>
      simp only [hc] at hE
      cases hr : cfg.rpc with
      | none => simp [hr] at hE
      | some r =>
        simp only [hr] at hE
        by_cases h0 : r = ""
        · simp [h0] at hE
        · simp only [h0, if_false] at hE
          obtain ⟨rfl, rfl⟩ : st.nextHandle = h ∧ _ = st2 := by simpa using hE
          exact ⟨rfl, rfl, rfl, rfl, rfl⟩

theorem ensureProvider_alloc (st : St) (c h : Nat) (st2 : St)
    (hp : st.providers c = none) (hE : ensureProvider st c = Except.ok (h, st2)) :
    h = st.nextHandle ∧ st2.nextHandle = st.nextHandle + 1 ∧
      st2.providers c = some h := by
  unfold ensureProvider at hE
  simp only [hp] at hE
  cases hc : st.configured c with
  | none => simp [hc] at hE
  | some cfg =>
    simp only [hc] at hE
    cases hr : cfg.rpc with
    | none => simp [hr] at hE
    | some r =>
      simp only [hr] at hE
      by_cases h0 : r = ""
      · simp [h0] at hE
      · simp only [h0, if_false] at hE
        obtain ⟨rfl, rfl⟩ : st.nextHandle = h ∧ _ = st2 := by simpa using hE
        exact ⟨rfl, rfl, by simp⟩

theorem applyChains_providers_none (st : St) (raw : String)
    (hne : trimChars raw.data ≠ []) (c : Nat) :
    (applyChains st raw).providers c = none := by
  simp [applyChains, hne]

theorem applyChains_nextHandle (st : St) (raw : String) :
    (applyChains st raw).nextHandle = st.nextHandle := by
  by_cases h : trimChars raw.data = [] <;> simp [applyChains, h]

theorem subscribe_listenerCount (st : St) (c : Nat) (t : String)
    (logs : Option (List TransferLog)) (h : Nat) (st2 : St)
    (hE : ensureProvider st c = Except.ok (h, st2)) :
    listenerCount (subscribeTokenTransfer st c t logs) c t =
      listenerCount st c t + 1 := by
  have hframe := ensureProvider_ok_frame st c h st2 hE
  unfold subscribeTokenTransfer
  rw [hE]
  simp [listenerCount, List.filter_append, hframe.1]

theorem startChainsLoop_skip (st : St) (c : Nat) (m : MonitorEntry) (rest : List Nat)
    (hm : st.monitors c = some m) :
    startChainsLoop st (c :: rest) = startChainsLoop st rest := by
  simp only [startChainsLoop, hm]

theorem startChainsLoop_error (st : St) (c : Nat) (rest : List Nat) (e : String)
    (hm : st.monitors c = none) (hE : ensureProvider st c = Except.error e) :
    startChainsLoop st (c :: rest) = (st, some e) := by
  simp only [startChainsLoop, hm, hE]

/-! ## Claim theorems -/

/-- C5: every distinct (truthy) txHash presented to the
observe/recordActivity path is delivered exactly once — the first call
carrying it forwards the event and records the hash, and every
subsequent call carrying the same hash is discarded with no side effect
at all, regardless of the chain or callback the calls come from. -/
theorem C5_thm :
    (∀ (calls : List (Nat × ActivityInfo)) (h : String), h ≠ "" →
        (∃ c ∈ calls, c.2.txHash = some h) →
        countHash (runCalls { seenTxs := [], sink := [] } calls).sink h = 1)
    ∧ (∀ (c : Nat) (info : ActivityInfo) (ns : NotifState) (h : String),
        info.txHash = some h → h ≠ "" → h ∈ ns.seenTxs →
        recordActivity c info ns = ns) := by
  constructor
  · intro calls h hne hex
    have hInv := runCalls_inv calls { seenTxs := [], sink := [] } h hne
      (by simp [dedupInv, countHash])
    have hmem := runCalls_seen_of_mem calls { seenTxs := [], sink := [] } h hne hex
    unfold dedupInv at hInv
    rw [if_pos hmem] at hInv
    exact hInv
  · intro c info ns h hx hne hm
    simp [recordActivity, hx, hne, hm]

def c5CallA : Nat × ActivityInfo :=
  (1, { type := TxKind.Native, fromAddr := "0xBB", toAddr := "0xAA",
        token := none, amount := "5", txHash := some "0xabc" })

def c5CallB : Nat × ActivityInfo :=
  (2, { type := TxKind.SitePayment, fromAddr := "0xBB", toAddr := "0xAA",
        token := none, amount := "5", txHash := some "0xabc" })

/-- Witness for C5_thm at a concrete two-call interleaving from two
different chains repeating the hash "0xabc". -/
theorem C5_witness :
    countHash (runCalls { seenTxs := [], sink := [] } [c5CallA, c5CallB]).sink "0xabc" = 1
    ∧ recordActivity 2 c5CallB.2 { seenTxs := ["0xabc"], sink := [(1, c5CallA.2)] } =
        { seenTxs := ["0xabc"], sink := [(1, c5CallA.2)] } :=
  ⟨C5_thm.1 [c5CallA, c5CallB] "0xabc" (by decide) ⟨c5CallB, by decide, by decide⟩,
   C5_thm.2 2 c5CallB.2 { seenTxs := ["0xabc"], sink := [(1, c5CallA.2)] } "0xabc"
     (by decide) (by decide) (by decide)⟩

/-- C6: the first tick of a BlockPoller behaves exactly as if the last
processed block were `latestBlock - 1`, so a poller starting at latest
block 100 never scans any block below 100 (no replay of older history)
and, once the latest block advances to 101, that tick scans exactly
block 101. -/
theorem C6_thm :
    (∀ latest : Int, pollTickPure none latest = pollTickPure (some (latest - 1)) latest)
    ∧ (∀ (ls : List Int) (b : Int),
        b ∈ ((pollRun ((100 : Int) :: ls)).2).flatten → (100 : Int) ≤ b)
    ∧ pollRun [100, 100, 101] = (some 101, [[100], [], [101]]) := by
  refine ⟨fun _ => rfl, ?_, by decide⟩
  intro ls b hb
  have hstep : pollTickPure none 100 = (some 100, [100]) := by decide
  simp only [pollRun, pollRunAux, hstep, List.nil_append] at hb
  refine pollRunAux_ge 100 ls 100 [[100]] (by omega) ?_ b hb
  intro b2 hb2
  simp at hb2
  omega

/-- Witness for C6_thm: the first-tick identity at latest block 100, and
block 101 of the advance tick is not below the starting block. -/
theorem C6_witness :
    pollTickPure none 100 = pollTickPure (some ((100 : Int) - 1)) 100
    ∧ (100 : Int) ≤ 101 :=
  ⟨C6_thm.1 100, C6_thm.2.1 [101] 101 (by decide)⟩

/-- C7: applying the override entry `137:https://x` to the freshly
initialised registry (which contains chain 137 named "Polygon") leaves
the display name, explorer and native symbol of chain 137 unchanged and
replaces only its rpc endpoint. -/
theorem C7_thm :
    (applyChains initSt "137:https://x").configured 137 =
      some { id := 137, name := "Polygon", rpc := some "https://x",
             explorer := "https://polygonscan.com/tx/", native := "MATIC" } := by
  decide

/-- C8: an entry whose id part is not a non-negative integer is silently
skipped — the loop state is completely unchanged by it — while every
well-formed entry of the same batch still produces its chain in the
result; a malformed entry never aborts the batch. -/
theorem C8_thm :
    (∀ (acc : ChainMap × ChainMap) (p : List Char),
        isWellFormedPart p = false → processPart acc p = acc)
    ∧ (∀ (defaults : ChainMap) (raw : String) (c : Nat),
        (∃ p ∈ splitParts raw.data, isWellFormedPart p = true ∧ partId p = c) →
        ((parseChainsInput defaults raw).2 c).isSome = true) := by
  refine ⟨processPart_malformed, ?_⟩
  intro defaults raw c hex
  exact foldl_processPart_some (splitParts raw.data) (defaults, fun _ => none) c
    (Or.inr hex)

/-- Witness for C8_thm: the malformed entry "abc" leaves the loop state
untouched, and in the mixed batch "abc,137:https://x" the valid entry is
still applied. -/
theorem C8_witness :
    processPart (DEFAULT_CHAINS, fun _ => none) ("abc".data) =
      (DEFAULT_CHAINS, fun _ => none)
    ∧ ((parseChainsInput DEFAULT_CHAINS "abc,137:https://x").2 137).isSome = true :=
  ⟨C8_thm.1 (DEFAULT_CHAINS, fun _ => none) ("abc".data) (by decide),
   C8_thm.2 DEFAULT_CHAINS "abc,137:https://x" 137
     ⟨("137:https://x".data), by decide, by decide, by decide⟩⟩

/-- C9: a cached provider handle is returned unchanged by repeated gets;
applying a chain-configuration override drops the entire provider pool
(every chain id), and the next successful get performs a fresh
allocation — in particular its handle differs from any handle the pool
held before the invalidation. -/
theorem C9_thm :
    (∀ (st : St) (c h : Nat) (st2 : St),
        ensureProvider st c = Except.ok (h, st2) →
        ensureProvider st2 c = Except.ok (h, st2))
    ∧ (∀ (st : St) (raw : String), trimChars raw.data ≠ [] →
        ∀ c, (applyChains st raw).providers c = none)
    ∧ (∀ (st : St) (c h : Nat) (st2 : St), st.providers c = none →
        ensureProvider st c = Except.ok (h, st2) →
        h = st.nextHandle ∧ st2.nextHandle = st.nextHandle + 1 ∧
          st2.providers c = some h)
    ∧ (∀ (st : St) (raw : String) (c c2 hOld h : Nat) (st2 : St),
        trimChars raw.data ≠ [] → st.providers c2 = some hOld →
        hOld < st.nextHandle →
        ensureProvider (applyChains st raw) c = Except.ok (h, st2) → h ≠ hOld) := by
  refine ⟨ensureProvider_cached_stable,
    fun st raw hne c => applyChains_providers_none st raw hne c,
    fun st c h st2 hp hE => ensureProvider_alloc st c h st2 hp hE, ?_⟩
  intro st raw c c2 hOld h st2 hne hp2 hlt hE
  have hnone := applyChains_providers_none st raw hne c
  have halloc := ensureProvider_alloc (applyChains st raw) c h st2 hnone hE
  have hnh := applyChains_nextHandle st raw
  rw [halloc.1, hnh]
  omega

/-- The state after a first successful `ensureProvider` for chain 1. -/
def wSt1 : St :=
  { initSt with
    providers := fun i => if i = 1 then some initSt.nextHandle else initSt.providers i,
    nextHandle := initSt.nextHandle + 1 }

def wSt2 : St := applyChains wSt1 "137:https://x"

/-- The state after re-opening chain 1's provider post-invalidation. -/
def wSt3 : St :=
  { wSt2 with
    providers := fun i => if i = 1 then some wSt2.nextHandle else wSt2.providers i,
    nextHandle := wSt2.nextHandle + 1 }

/-- Witness for C9_thm: chain 1's handle 0 is cached and stable, an
override batch empties the pool, and the post-invalidation get allocates
handle 1, different from the old handle 0. -/
theorem C9_witness :
    ensureProvider wSt1 1 = Except.ok (0, wSt1)
    ∧ (applyChains wSt1 "137:https://x").providers 5 = none
    ∧ ((0 : Nat) = initSt.nextHandle ∧ wSt1.nextHandle = initSt.nextHandle + 1 ∧
        wSt1.providers 1 = some 0)
    ∧ (1 : Nat) ≠ 0 :=
  ⟨C9_thm.1 initSt 1 0 wSt1 rfl,
   C9_thm.2.1 wSt1 "137:https://x" (by decide) 5,
   C9_thm.2.2.1 initSt 1 0 wSt1 rfl rfl,
   C9_thm.2.2.2 wSt1 "137:https://x" 1 1 0 1 wSt3 (by decide) rfl (by decide) rfl⟩

/-- C10: applying an entry that supplies an rpc for a built-in chain
mutates the stored default object for that id (the built-in set is not
left unchanged), so a later override of the same id supplying no rpc
falls back to the most recently supplied endpoint instead of the
original built-in one. -/
theorem C10_thm :
    ((applyChains initSt "137:https://r1").defaults 137 ≠ DEFAULT_CHAINS 137)
    ∧ (((applyChains initSt "137:https://r1").defaults 137).map ChainConfig.rpc =
        some (some "https://r1"))
    ∧ (((applyChains (applyChains initSt "137:https://r1") "137").configured 137).map
        ChainConfig.rpc = some (some "https://r1"))
    ∧ ((DEFAULT_CHAINS 137).map ChainConfig.rpc =
        some (some "https://polygon-rpc.com")) := by
  decide

/-- A transaction to the watched address "0xaa" sent by the configured
counterparty (site) address "0xbb". -/
def c1Tx : Tx :=
  { fromAddr := "0xBB", toAddr := some "0xAA", value := "5", hash := "0xabc" }

/-- C1 counterexample: for a transaction matching both the native rule
and the counterparty rule, the sink receives only the NATIVE event — the
COUNTERPARTY (SitePayment) emission is dropped, because the dedup key is
the bare txHash, shared across kinds.  The claim that both events are
delivered independently is false on this input. -/
theorem C1_counterexample :
    ((processTx "0xaa" (some "0xbb") 1 { seenTxs := [], sink := [] } c1Tx).sink.map
        (fun e => e.2.type) = [TxKind.Native])
    ∧ TxKind.SitePayment ∉
        ((processTx "0xaa" (some "0xbb") 1 { seenTxs := [], sink := [] } c1Tx).sink.map
          (fun e => e.2.type)) := by
  decide

/-- C1 (amended): when a single transaction matches both the native rule
and the counterparty rule and its txHash is new, the poll body attempts
both emissions but only the NATIVE event reaches the sink; the
COUNTERPARTY emission is discarded by the shared txHash dedup key. -/
theorem C1_amended_thm (wallet site : String) (chainId : Nat) (ns : NotifState) (tx : Tx)
    (hTo : txToMatches wallet tx = true)
    (hSite : siteMatches (some site) wallet tx = true)
    (hne : tx.hash ≠ "") (hnew : tx.hash ∉ ns.seenTxs) :
    (processTx wallet (some site) chainId ns tx).sink =
      ns.sink ++ [(chainId, nativeInfo tx)]
    ∧ (processTx wallet (some site) chainId ns tx).seenTxs = tx.hash :: ns.seenTxs := by
  have h1 : recordActivity chainId (nativeInfo tx) ns =
      { seenTxs := tx.hash :: ns.seenTxs, sink := ns.sink ++ [(chainId, nativeInfo tx)] } := by
    simp [recordActivity, nativeInfo, hne, hnew]
  have h2 : recordActivity chainId (siteInfo tx)
      { seenTxs := tx.hash :: ns.seenTxs, sink := ns.sink ++ [(chainId, nativeInfo tx)] } =
      { seenTxs := tx.hash :: ns.seenTxs, sink := ns.sink ++ [(chainId, nativeInfo tx)] } := by
    simp [recordActivity, siteInfo, nativeInfo, hne]
  simp only [processTx, hTo, hSite, if_true]
  rw [h1, h2]
  exact ⟨rfl, rfl⟩

/-- Witness for C1_amended_thm at the concrete transaction c1Tx. -/
theorem C1_amended_witness :
    (processTx "0xaa" (some "0xbb") 1 { seenTxs := [], sink := [] } c1Tx).sink =
      [] ++ [(1, nativeInfo c1Tx)]
    ∧ (processTx "0xaa" (some "0xbb") 1 { seenTxs := [], sink := [] } c1Tx).seenTxs =
        c1Tx.hash :: [] :=
  C1_amended_thm "0xaa" "0xbb" 1 { seenTxs := [], sink := [] } c1Tx
    (by decide) (by decide) (by decide) (by decide)

/-- The chain data delivered by the in-flight block fetch of the C2
scenario: block 100 holds one native transfer to the watched address. -/
def c2Blocks : Int → List Tx := fun b =>
  if b = 100 then [{ fromAddr := "0xBB", toAddr := some "0xAA", value := "5", hash := "0xdef" }]
  else []

def c2Init : PollSim :=
  { intervalActive := true, polledBlock := none, pending := false,
    notif := { seenTxs := [], sink := [] } }

/-- The poller state after a tick began (its latest-block fetch is in
flight) and stopMonitoring then cleared the interval. -/
def c2AfterStop : PollSim :=
  pollRunOps "0xaa" none 1 c2Init [PollOp.tickFire, PollOp.stopMonitor]

/-- The state after the in-flight fetch completes post-cancellation. -/
def c2Final : PollSim :=
  pollStep "0xaa" none 1 c2AfterStop (PollOp.fetchComplete 100 c2Blocks)

/-- C2 counterexample: at stop time the poller is canceled, nothing has
been delivered, and one block fetch is pending; when that fetch
completes after stop, its result is not discarded — the tick body runs
and one event reaches the sink.  The claim that pending results are
discarded after stopMonitoring is false on this trace. -/
theorem C2_counterexample :
    c2AfterStop.intervalActive = false
    ∧ c2AfterStop.notif.sink = []
    ∧ c2AfterStop.pending = true
    ∧ c2Final.notif.sink.length = 1 := by
  decide

/-- C2 (amended): after stopMonitoring the cleared interval never starts
another tick, but a tick whose RPC fetch was in flight at cancellation
still completes and delivers its notifications (here: the NATIVE event
of block 100). -/
theorem C2_amended_thm :
    (∀ (w : String) (sa : Option String) (cid : Nat) (st : PollSim),
        st.intervalActive = false → pollStep w sa cid st PollOp.tickFire = st)
    ∧ c2Final.notif.sink.map (fun e => e.2.type) = [TxKind.Native] := by
  constructor
  · intro w sa cid st h
    simp [pollStep, h]
  · decide

/-- Witness for C2_amended_thm: firing the timer on the stopped state is
a no-op. -/
theorem C2_amended_witness :
    pollStep "0xaa" none 1 c2AfterStop PollOp.tickFire = c2AfterStop :=
  C2_amended_thm.1 "0xaa" none 1 c2AfterStop rfl

/-- The module state after the user applies the override batch "999",
configuring chain 999 with no rpc endpoint (reachable via the UI). -/
def c3St : St := applyChains initSt "999"

/-- C3 counterexample: requesting chains [1, 999, 56] where 999 has no
rpc endpoint leaves chain 56 unstarted even though 56 is validly
configured (and would have started had 999 not been requested): the
per-chain ConfigurationError aborts the sibling chains after it.  The
claim that it does not abort them is false on this input. -/
theorem C3_counterexample :
    (startChainsLoop c3St [1, 999, 56]).1.monitors 56 = none
    ∧ ((startChainsLoop c3St [1, 999, 56]).2.isSome = true)
    ∧ (((startChainsLoop c3St [1, 56]).1.monitors 56).isSome = true) := by
  decide

/-- C3 (amended): a chain with no rpc endpoint makes ensureProvider
throw inside the forEach, so startMonitoring stops there: chains earlier
in the selection remain started (chain 1 below), the failing chain and
all later siblings are not started, and the error propagates to the
caller instead of being reported per chain. -/
theorem C3_amended_thm :
    (∀ (st : St) (c : Nat) (rest : List Nat) (e : String),
        st.monitors c = none → ensureProvider st c = Except.error e →
        startChainsLoop st (c :: rest) = (st, some e))
    ∧ ((startChainsLoop c3St [1, 999, 56]).1.monitors 1).isSome = true := by
  refine ⟨fun st c rest e hm hE => startChainsLoop_error st c rest e hm hE, ?_⟩
  decide

/-- Witness for C3_amended_thm: starting [999] from the reachable state
c3St aborts immediately with the configuration error. -/
theorem C3_amended_witness :
    startChainsLoop c3St [999] =
      (c3St, some ("No RPC configured for chain " ++ toString 999)) :=
  C3_amended_thm.1 c3St 999 [] ("No RPC configured for chain " ++ toString 999) rfl rfl

/-- The state after one `subscribeTokenTransfer` for (chain 1, token
"0xT") with an empty backfill. -/
def c4aSt : St := subscribeTokenTransfer initSt 1 "0xT" (some [])

/-- The state after invoking `subscribeTokenTransfer` twice for the same
(chain, token) pair. -/
def c4St : St := subscribeTokenTransfer c4aSt 1 "0xT" (some [])

/-- C4 counterexample: two invocations of the subscription operation for
the same (chain 1, token "0xT") pair attach two live listeners and push
two cancel closures — no already-subscribed tracking exists.  The claim
that the second invocation creates no duplicate listener is false on
this input. -/
theorem C4_counterexample :
    listenerCount c4St 1 "0xT" = 2
    ∧ ((c4St.monitors 1).map (fun m => m.tokenListeners.length)) = some 2 := by
  decide

/-- C4 (amended): each successful `subscribeTokenTransfer` invocation
unconditionally attaches one more live listener for its (chain, token)
pair — so repeated invocation duplicates listeners; the only idempotency
in the session is per chain: startMonitoring skips a chain that already
has a monitors entry. -/
theorem C4_amended_thm :
    (∀ (st : St) (c : Nat) (t : String) (logs : Option (List TransferLog))
        (h : Nat) (st2 : St),
        ensureProvider st c = Except.ok (h, st2) →
        listenerCount (subscribeTokenTransfer st c t logs) c t =
          listenerCount st c t + 1)
    ∧ (∀ (st : St) (c : Nat) (m : MonitorEntry) (rest : List Nat),
        st.monitors c = some m →
        startChainsLoop st (c :: rest) = startChainsLoop st rest) :=
  ⟨fun st c t logs h st2 hE => subscribe_listenerCount st c t logs h st2 hE,
   fun st c m rest hm => startChainsLoop_skip st c m rest hm⟩

/-- Witness for C4_amended_thm: the first subscription for (1, "0xT")
raises the listener count from 0 to 1, and starting chain 1 when it is
already monitored is a no-op. -/
theorem C4_amended_witness :
    (listenerCount (subscribeTokenTransfer initSt 1 "0xT" (some [])) 1 "0xT" =
      listenerCount initSt 1 "0xT" + 1)
    ∧ startChainsLoop c4aSt [1] = startChainsLoop c4aSt [] :=
  ⟨C4_amended_thm.1 initSt 1 "0xT" (some []) 0 wSt1 rfl,
   C4_amended_thm.2 c4aSt 1 { tokenListeners := [0], pollHandle := none } [] rfl⟩

end Wallet
